import Mathlib

/-
Verification of the telemetry redaction and event-tracking layer of the
Vercel CLI, as a shallow embedding in Lean 4.

The embedding models:
* the telemetry data model (`TelemetryEvent`, the event store);
* the base telemetry client primitives and the event store operations
  (`record`, `reset`, `trackCliOption`, `trackCliFlag`, `trackCliArgument`),
  which are not part of the provided sources and are therefore modelled
  from the specification;
* the specialized `ListTelemetryClient` trackers, translated from
  `src/unnamed/part_000`;
* the `pull`, `init`, `target` and `dns rm` command handlers, translated
  from `src/packages/cli/src/commands` (with downstream command logic kept
  abstract as function parameters, since it is outside the telemetry layer).

JavaScript truthiness is made explicit: an optional string argument guarded
by `if (x)` records only for a present, non-empty string; an optional number
records only for a present, non-zero number; an optional array guarded by
`if (x && x.length > 0)` records only for a present, non-empty list.
-/

namespace Vercel

/-- Kind tag of a telemetry event: the spec names the four kinds
`option`, `flag`, `argument`, `subcommand`. -/
inductive EventKind where
  | option
  | flag
  | argument
  | subcommand
  deriving DecidableEq, Repr

/-- An immutable record of one tracked interaction, serialized as
`{ kind, key, value }` per the spec.  Flag events carry no value payload;
we record the empty string for them. -/
structure TelemetryEvent where
  kind : EventKind
  key : String
  value : String
  deriving DecidableEq, Repr

/-- The event store is the in-memory, per-invocation, append-only buffer of
recorded telemetry events, in order of emission. -/
abbrev EventStore := List TelemetryEvent

/-- Modelled from the spec: `TelemetryEventStore.record(event)` appends one
event; no deduplication; no ordering changes.  (The store class itself is
not among the provided sources; only its test double and callers are.) -/
def record (store : EventStore) (e : TelemetryEvent) : EventStore :=
  store ++ [e]

/-- Modelled from the spec: `TelemetryEventStore.reset()` clears all
recorded events.  (Called by `MockClient.reset` in
`src/unnamed/part_002`; the store class itself is not in the sources.) -/
def reset (_store : EventStore) : EventStore :=
  []

/-- Modelled from the spec: the redaction placeholder, one fixed globally
shared string constant used everywhere a value must be hidden
(`this.redactedValue` in the sources). -/
def redactedValue : String :=
  "[REDACTED]"

/-- Modelled from the spec: base client `trackCliOption(option, value)`
emits one `option` event via `record`. -/
def trackCliOption (store : EventStore) (opt value : String) : EventStore :=
  record store ⟨EventKind.option, opt, value⟩

/-- Modelled from the spec: base client `trackCliFlag(name)` emits one
`flag` event with the fixed flag name via `record`. -/
def trackCliFlag (store : EventStore) (name : String) : EventStore :=
  record store ⟨EventKind.flag, name, ""⟩

/-- Modelled from the spec: base client `trackCliArgument(arg, value)`
emits one `argument` event via `record`. -/
def trackCliArgument (store : EventStore) (arg value : String) : EventStore :=
  record store ⟨EventKind.argument, arg, value⟩

/-- Modelled from the spec: base client `trackCliSubcommand` emits one
`subcommand` event recording which alias the user typed for the canonical
subcommand name. -/
def trackCliSubcommand (store : EventStore) (name typed : String) : EventStore :=
  record store ⟨EventKind.subcommand, name, typed⟩

/-- `ListTelemetryClient.trackCliOptionMeta` (src/unnamed/part_000):
records one `meta` option event with the redacted value when the array is
present and non-empty, else nothing. -/
def trackCliOptionMeta (store : EventStore) (meta : Option (List String)) : EventStore :=
  match meta with
  | some m => if m.length > 0 then trackCliOption store "meta" redactedValue else store
  | none => store

/-- `ListTelemetryClient.trackCliOptionPolicy` (src/unnamed/part_000):
records one `policy` option event with the redacted value when the array is
present and non-empty, else nothing. -/
def trackCliOptionPolicy (store : EventStore) (policy : Option (List String)) : EventStore :=
  match policy with
  | some p => if p.length > 0 then trackCliOption store "policy" redactedValue else store
  | none => store

/-- The environment redaction step inlined in
`ListTelemetryClient.trackCliOptionEnvironment` (src/unnamed/part_000):
any value other than the two allow-listed deployment targets is replaced
by the placeholder. -/
def redactEnvironment (environment : String) : String :=
  if environment ≠ "production" ∧ environment ≠ "preview" then redactedValue
  else environment

/-- `ListTelemetryClient.trackCliOptionEnvironment` (src/unnamed/part_000):
for a present, non-empty (truthy) string, records one `environment` option
event whose value is the input when allow-listed, else the placeholder. -/
def trackCliOptionEnvironment (store : EventStore) (environment : Option String) :
    EventStore :=
  match environment with
  | some e =>
      if e ≠ "" then trackCliOption store "environment" (redactEnvironment e)
      else store
  | none => store

/-- `ListTelemetryClient.trackCliOptionNext` (src/unnamed/part_000):
for a present, non-zero (truthy) number, records one `next` option event
with the redacted value. -/
def trackCliOptionNext (store : EventStore) (next : Option Int) : EventStore :=
  match next with
  | some n => if n ≠ 0 then trackCliOption store "next" redactedValue else store
  | none => store

/-- `ListTelemetryClient.trackCliFlagProd` (src/unnamed/part_000):
records one `prod` flag event exactly when the flag is present and true. -/
def trackCliFlagProd (store : EventStore) (flag : Option Bool) : EventStore :=
  match flag with
  | some true => trackCliFlag store "prod"
  | _ => store

/-- `ListTelemetryClient.trackCliFlagYes` (src/unnamed/part_000):
records one `yes` flag event exactly when the flag is present and true. -/
def trackCliFlagYes (store : EventStore) (flag : Option Bool) : EventStore :=
  match flag with
  | some true => trackCliFlag store "yes"
  | _ => store

/-- `ListTelemetryClient.trackCliFlagConfirm` (src/unnamed/part_000):
records one `confirm` flag event exactly when the flag is present and true. -/
def trackCliFlagConfirm (store : EventStore) (flag : Option Bool) : EventStore :=
  match flag with
  | some true => trackCliFlag store "confirm"
  | _ => store

/-- `ListTelemetryClient.trackCliArgumentApp` (src/unnamed/part_000):
for a present, non-empty (truthy) string, records one `app` argument event
with the redacted value. -/
def trackCliArgumentApp (store : EventStore) (app : Option String) : EventStore :=
  match app with
  | some a => if a ≠ "" then trackCliArgument store "app" redactedValue else store
  | none => store

/-- Modelled from the spec: `PullTelemetryClient.trackCliOptionGitBranch`
(the pull client file is not in the sources).  A free-form scalar option:
recorded with the placeholder when present and non-empty, else nothing. -/
def trackCliOptionGitBranch (store : EventStore) (branch : Option String) : EventStore :=
  match branch with
  | some b => if b ≠ "" then trackCliOption store "git-branch" redactedValue else store
  | none => store

/-- Modelled from the spec: `InitTelemetryClient.trackCliArgumentDir`
(the init client file is not in the sources).  A free-form positional
argument: recorded with the placeholder when present and non-empty. -/
def trackCliArgumentDir (store : EventStore) (dir : Option String) : EventStore :=
  match dir with
  | some d => if d ≠ "" then trackCliArgument store "dir" redactedValue else store
  | none => store

/-- Modelled from the spec: `InitTelemetryClient.trackCliFlagForce`
(the init client file is not in the sources).  A boolean flag: one `force`
flag event exactly when present and true. -/
def trackCliFlagForce (store : EventStore) (flag : Option Bool) : EventStore :=
  match flag with
  | some true => trackCliFlag store "force"
  | _ => store

/-- Modelled from the spec: `TargetTelemetryClient.trackCliSubcommandList`
(the target client file is not in the sources).  Records which alias the
user typed for the canonical `list` subcommand; the subcommand name space
is a small safe enumeration, so the literal is preserved. -/
def trackCliSubcommandList (store : EventStore) (typed : String) : EventStore :=
  trackCliSubcommand store "list" typed

/-- Modelled from the spec: `DnsRmTelemetryClient.trackCliArgumentRecordId`
(the dns rm client file is not in the sources).  A free-form positional
argument: recorded with the placeholder when present and non-empty. -/
def trackCliArgumentRecordId (store : EventStore) (recordId : Option String) : EventStore :=
  match recordId with
  | some r => if r ≠ "" then trackCliArgument store "recordId" redactedValue else store
  | none => store

/-- Parsed flags of the `pull` command that its handler consults before or
while tracking telemetry (src/packages/cli/src/commands/pull/index.ts). -/
structure PullFlags where
  help : Bool
  yes : Bool
  prod : Bool
  gitBranch : Option String
  environment : Option String

/-- `main` of the `pull` command
(src/packages/cli/src/commands/pull/index.ts), threading the telemetry
event store explicitly.  `parsedArgs = none` models a parse error
(`handleError`, exit 1).  The downstream `pullCommandLogic` is abstract:
it receives the store accumulated so far and yields the final exit code
and store. -/
def pullMain (parsedArgs : Option PullFlags) (store : EventStore)
    (pullCommandLogic : EventStore → Int × EventStore) : Int × EventStore :=
  match parsedArgs with
  | none => (1, store)
  | some pa =>
      if pa.help then (2, store)
      else
        let s1 := trackCliFlagYes store (some pa.yes)
        let s2 := trackCliFlagProd s1 (some pa.prod)
        let s3 := trackCliOptionGitBranch s2 pa.gitBranch
        let s4 := trackCliOptionEnvironment s3 pa.environment
        pullCommandLogic s4

/-- Parsed arguments of the `init` command that its handler consults
before or while tracking telemetry
(second file in src/packages/cli/src/commands/dns/import.ts). -/
structure InitFlags where
  help : Bool
  force : Bool
  args : List String

/-- `main` of the `init` command (second file in
src/packages/cli/src/commands/dns/import.ts), threading the telemetry
event store explicitly.  `parsedArgs = none` models a parse error
(exit 1).  The downstream `init` call is abstract; its own try/catch
(exit 1 on throw) is folded into the abstract result. -/
def initMain (parsedArgs : Option InitFlags) (store : EventStore)
    (initFn : EventStore → Int × EventStore) : Int × EventStore :=
  match parsedArgs with
  | none => (1, store)
  | some pa =>
      if pa.help then (2, store)
      else if pa.args.length > 3 then (1, store)
      else
        let s1 := trackCliArgumentDir store pa.args[2]?
        let s2 := trackCliFlagForce s1 (some pa.force)
        initFn s2

/-- Parsed arguments of the `target` command that its handler consults
before or while tracking telemetry (src/unnamed/part_001). -/
structure TargetFlags where
  help : Bool
  args : List String

/-- `main` of the `target` command (src/unnamed/part_001), threading the
telemetry event store explicitly.  The handler drops the first positional
argument, dispatches on the subcommand (`ls`/`list` aliases of `list`),
and returns 2 with a help print for an unknown or missing subcommand. -/
def targetMain (parsedArgs : Option TargetFlags) (store : EventStore)
    (listFn : EventStore → Int × EventStore) : Int × EventStore :=
  match parsedArgs with
  | none => (1, store)
  | some pa =>
      if pa.help then (2, store)
      else
        match (pa.args.drop 1).head? with
        | some sub =>
            if sub = "ls" ∨ sub = "list" then
              listFn (trackCliSubcommandList store sub)
            else (2, store)
        | none => (2, store)

/-- `rm` of the `dns rm` command (src/packages/cli/src/commands/dns/rm.ts),
threading the telemetry event store explicitly.  The DNS record lookup is
abstract (`lookup recordId = true` when the record exists), as is the
confirmation prompt answer; deletion itself does not touch the store. -/
def dnsRm (store : EventStore) (args : List String)
    (lookup : String → Bool) (confirmed : Bool) : Int × EventStore :=
  if args.length ≠ 1 then (1, store)
  else
    let recordId := args.headD ""
    let s1 := trackCliArgumentRecordId store (some recordId)
    if lookup recordId then
      if confirmed then (0, s1) else (0, s1)
    else (1, s1)

/-- Helper: a guarded tracking step either leaves the store unchanged or
appends exactly one event at the end. -/
theorem ite_record_frame (store : EventStore) (c : Prop) [Decidable c]
    (e : TelemetryEvent) :
    (if c then record store e else store) = store ∨
      ∃ e2, (if c then record store e else store) = store ++ [e2] := by
  by_cases h : c
  · exact Or.inr ⟨e, by simp [h, record]⟩
  · exact Or.inl (by simp [h])

/-- C2: for every non-empty string given to `trackCliOptionEnvironment`,
exactly one `environment` option event is recorded; its value is the
placeholder when the string is outside the allow-list
`{production, preview}`, and the input verbatim when it is exactly
`production` or `preview`. -/
theorem trackCliOptionEnvironment_allowlist (store : EventStore) (env : String)
    (h : env ≠ "") :
    (env ≠ "production" → env ≠ "preview" →
      trackCliOptionEnvironment store (some env) =
        store ++ [⟨EventKind.option, "environment", redactedValue⟩]) ∧
    (env = "production" ∨ env = "preview" →
      trackCliOptionEnvironment store (some env) =
        store ++ [⟨EventKind.option, "environment", env⟩]) := by
  constructor
  · intro h1 h2
    simp [trackCliOptionEnvironment, h, redactEnvironment, h1, h2,
      trackCliOption, record]
  · rintro (rfl | rfl) <;>
      simp [trackCliOptionEnvironment, redactEnvironment, trackCliOption, record]

/-- Witness for C2 at the concrete inputs `staging` (redacted) and
`production` (verbatim). -/
theorem trackCliOptionEnvironment_allowlist_witness :
    trackCliOptionEnvironment [] (some "staging") =
      [⟨EventKind.option, "environment", redactedValue⟩] ∧
    trackCliOptionEnvironment [] (some "production") =
      [⟨EventKind.option, "environment", "production"⟩] :=
  ⟨(trackCliOptionEnvironment_allowlist [] "staging" (by decide)).1
      (by decide) (by decide),
   (trackCliOptionEnvironment_allowlist [] "production" (by decide)).2
      (Or.inl rfl)⟩

/-- C3: each boolean flag tracker records zero events on `undefined` or
`false`, and exactly one `flag` event with the fixed flag name on `true`. -/
theorem flag_trackers_exact (store : EventStore) :
    trackCliFlagProd store none = store ∧
    trackCliFlagProd store (some false) = store ∧
    trackCliFlagProd store (some true) =
      store ++ [⟨EventKind.flag, "prod", ""⟩] ∧
    trackCliFlagYes store none = store ∧
    trackCliFlagYes store (some false) = store ∧
    trackCliFlagYes store (some true) =
      store ++ [⟨EventKind.flag, "yes", ""⟩] ∧
    trackCliFlagConfirm store none = store ∧
    trackCliFlagConfirm store (some false) = store ∧
    trackCliFlagConfirm store (some true) =
      store ++ [⟨EventKind.flag, "confirm", ""⟩] := by
  simp [trackCliFlagProd, trackCliFlagYes, trackCliFlagConfirm,
    trackCliFlag, record]

/-- C4: every optional scalar, string, or array tracker of the list client
records zero events on `undefined`, `0`, the empty string, or the empty
array. -/
theorem empty_inputs_record_nothing (store : EventStore) :
    trackCliOptionMeta store none = store ∧
    trackCliOptionMeta store (some []) = store ∧
    trackCliOptionPolicy store none = store ∧
    trackCliOptionPolicy store (some []) = store ∧
    trackCliOptionEnvironment store none = store ∧
    trackCliOptionEnvironment store (some "") = store ∧
    trackCliOptionNext store none = store ∧
    trackCliOptionNext store (some 0) = store ∧
    trackCliArgumentApp store none = store ∧
    trackCliArgumentApp store (some "") = store := by
  simp [trackCliOptionMeta, trackCliOptionPolicy, trackCliOptionEnvironment,
    trackCliOptionNext, trackCliArgumentApp]

/-- C5: redaction is idempotent: the environment redaction step is stable
under repeated application, the placeholder redacts to itself, and calling
`trackCliOptionEnvironment` with the placeholder string records an event
whose value is that same placeholder. -/
theorem redaction_idempotent (s : String) (store : EventStore) :
    redactEnvironment (redactEnvironment s) = redactEnvironment s ∧
    redactEnvironment redactedValue = redactedValue ∧
    trackCliOptionEnvironment store (some redactedValue) =
      store ++ [⟨EventKind.option, "environment", redactedValue⟩] := by
  refine ⟨?_, by decide, ?_⟩
  · unfold redactEnvironment
    by_cases h1 : s ≠ "production" ∧ s ≠ "preview"
    · simp [if_pos h1]
    · simp [if_neg h1]
  · have h2 : redactEnvironment redactedValue = redactedValue := by decide
    simp [trackCliOptionEnvironment, h2, trackCliOption, record,
      show redactedValue ≠ "" from by decide]

/-- C1 counterexample: as stated, the claim fails when the supplied value
is itself the placeholder string: `trackCliArgumentApp` on the input
`[REDACTED]` records an event whose value equals that literal input. -/
theorem sensitive_trackers_counterexample :
    ¬ (∀ (app : String), app ≠ "" →
        ∀ e ∈ trackCliArgumentApp [] (some app), e.value ≠ app) := by
  intro h
  exact h redactedValue (by decide)
    ⟨EventKind.argument, "app", redactedValue⟩ (by decide) rfl

/-- C1 (amended): whenever a sensitive-field tracker of the list client
records an event for a present, non-empty input, the event's value is the
placeholder constant, hence differs from the user-supplied value (and from
every element of a supplied array) except when that value is itself the
placeholder string. -/
theorem sensitive_trackers_redact (store : EventStore)
    (meta policy : List String) (next : Int) (app : String)
    (hm : meta ≠ []) (hp : policy ≠ []) (hn : next ≠ 0) (ha : app ≠ "") :
    trackCliOptionMeta store (some meta) =
      store ++ [⟨EventKind.option, "meta", redactedValue⟩] ∧
    trackCliOptionPolicy store (some policy) =
      store ++ [⟨EventKind.option, "policy", redactedValue⟩] ∧
    trackCliOptionNext store (some next) =
      store ++ [⟨EventKind.option, "next", redactedValue⟩] ∧
    trackCliArgumentApp store (some app) =
      store ++ [⟨EventKind.argument, "app", redactedValue⟩] ∧
    (∀ x ∈ meta, x ≠ redactedValue → redactedValue ≠ x) ∧
    (∀ x ∈ policy, x ≠ redactedValue → redactedValue ≠ x) ∧
    (app ≠ redactedValue → redactedValue ≠ app) := by
  have hm2 : meta.length > 0 := List.length_pos.mpr hm
  have hp2 : policy.length > 0 := List.length_pos.mpr hp
  refine ⟨?_, ?_, ?_, ?_, ?_, ?_, ?_⟩
  · simp [trackCliOptionMeta, hm2, trackCliOption, record]
  · simp [trackCliOptionPolicy, hp2, trackCliOption, record]
  · simp [trackCliOptionNext, hn, trackCliOption, record]
  · simp [trackCliArgumentApp, ha, trackCliArgument, record]
  · exact fun x _ hx => Ne.symm hx
  · exact fun x _ hx => Ne.symm hx
  · exact fun hx => Ne.symm hx

/-- Witness for the amended C1 at concrete non-empty inputs. -/
theorem sensitive_trackers_redact_witness :
    trackCliOptionMeta [] (some ["a=1"]) =
      [⟨EventKind.option, "meta", redactedValue⟩] ∧
    trackCliArgumentApp [] (some "my-app") =
      [⟨EventKind.argument, "app", redactedValue⟩] :=
  have h := sensitive_trackers_redact [] ["a=1"] ["p1"] 20 "my-app"
    (by decide) (by decide) (by decide) (by decide)
  ⟨h.1, h.2.2.2.1⟩

/-- C6: every tracking method of the list client appends at most one event
per call and leaves all previously recorded events and their order
unchanged: the resulting store is the prior store, optionally extended by
exactly one event at the end. -/
theorem trackers_frame (store : EventStore) (meta policy : Option (List String))
    (env app : Option String) (next : Option Int) (p y c : Option Bool) :
    (trackCliOptionMeta store meta = store ∨
      ∃ e, trackCliOptionMeta store meta = store ++ [e]) ∧
    (trackCliOptionPolicy store policy = store ∨
      ∃ e, trackCliOptionPolicy store policy = store ++ [e]) ∧
    (trackCliOptionEnvironment store env = store ∨
      ∃ e, trackCliOptionEnvironment store env = store ++ [e]) ∧
    (trackCliOptionNext store next = store ∨
      ∃ e, trackCliOptionNext store next = store ++ [e]) ∧
    (trackCliFlagProd store p = store ∨
      ∃ e, trackCliFlagProd store p = store ++ [e]) ∧
    (trackCliFlagYes store y = store ∨
      ∃ e, trackCliFlagYes store y = store ++ [e]) ∧
    (trackCliFlagConfirm store c = store ∨
      ∃ e, trackCliFlagConfirm store c = store ++ [e]) ∧
    (trackCliArgumentApp store app = store ∨
      ∃ e, trackCliArgumentApp store app = store ++ [e]) := by
  refine ⟨?_, ?_, ?_, ?_, ?_, ?_, ?_, ?_⟩
  · cases meta with
    | none => exact Or.inl rfl
    | some m =>
        unfold trackCliOptionMeta trackCliOption
        exact ite_record_frame store _ _
  · cases policy with
    | none => exact Or.inl rfl
    | some pl =>
        unfold trackCliOptionPolicy trackCliOption
        exact ite_record_frame store _ _
  · cases env with
    | none => exact Or.inl rfl
    | some e =>
        unfold trackCliOptionEnvironment trackCliOption
        exact ite_record_frame store _ _
  · cases next with
    | none => exact Or.inl rfl
    | some n =>
        unfold trackCliOptionNext trackCliOption
        exact ite_record_frame store _ _
  · rcases p with _ | _ | _
    · exact Or.inl rfl
    · exact Or.inl rfl
    · exact Or.inr ⟨_, rfl⟩
  · rcases y with _ | _ | _
    · exact Or.inl rfl
    · exact Or.inl rfl
    · exact Or.inr ⟨_, rfl⟩
  · rcases c with _ | _ | _
    · exact Or.inl rfl
    · exact Or.inl rfl
    · exact Or.inr ⟨_, rfl⟩
  · cases app with
    | none => exact Or.inl rfl
    | some a =>
        unfold trackCliArgumentApp trackCliArgument
        exact ite_record_frame store _ _

/-- C7: `reset` leaves the store with zero events from any state; in
particular, after recording 5 events the store holds 5 events and `reset`
leaves it with 0. -/
theorem reset_clears (store : EventStore) :
    reset store = [] ∧
    (trackCliFlagProd (trackCliFlagYes (trackCliFlagConfirm (trackCliOptionMeta
        (trackCliArgumentApp [] (some "my-app")) (some ["k=v"])) (some true))
        (some true)) (some true)).length = 5 ∧
    (reset (trackCliFlagProd (trackCliFlagYes (trackCliFlagConfirm
        (trackCliOptionMeta (trackCliArgumentApp [] (some "my-app"))
        (some ["k=v"])) (some true)) (some true)) (some true))).length = 0 :=
  ⟨rfl, by decide, rfl⟩

/-- C8: every public tracking method of the telemetry layer is a total
function of its input: for every input, including `undefined`, `0`, the
empty string, and the empty array, the call evaluates to a defined result
that either records nothing or records exactly one event; no exceptional
outcome exists in the semantics of these methods. -/
theorem trackers_total (store : EventStore) (meta policy : Option (List String))
    (env app : Option String) (next : Option Int) (p y c : Option Bool) :
    (∃ out, trackCliOptionMeta store meta = out ∧
      (out = store ∨ ∃ e, out = store ++ [e])) ∧
    (∃ out, trackCliOptionPolicy store policy = out ∧
      (out = store ∨ ∃ e, out = store ++ [e])) ∧
    (∃ out, trackCliOptionEnvironment store env = out ∧
      (out = store ∨ ∃ e, out = store ++ [e])) ∧
    (∃ out, trackCliOptionNext store next = out ∧
      (out = store ∨ ∃ e, out = store ++ [e])) ∧
    (∃ out, trackCliFlagProd store p = out ∧
      (out = store ∨ ∃ e, out = store ++ [e])) ∧
    (∃ out, trackCliFlagYes store y = out ∧
      (out = store ∨ ∃ e, out = store ++ [e])) ∧
    (∃ out, trackCliFlagConfirm store c = out ∧
      (out = store ∨ ∃ e, out = store ++ [e])) ∧
    (∃ out, trackCliArgumentApp store app = out ∧
      (out = store ∨ ∃ e, out = store ++ [e])) := by
  refine ⟨⟨_, rfl, ?_⟩, ⟨_, rfl, ?_⟩, ⟨_, rfl, ?_⟩, ⟨_, rfl, ?_⟩,
    ⟨_, rfl, ?_⟩, ⟨_, rfl, ?_⟩, ⟨_, rfl, ?_⟩, ⟨_, rfl, ?_⟩⟩
  · cases meta with
    | none => exact Or.inl rfl
    | some m =>
        unfold trackCliOptionMeta trackCliOption
        exact ite_record_frame store _ _
  · cases policy with
    | none => exact Or.inl rfl
    | some pl =>
        unfold trackCliOptionPolicy trackCliOption
        exact ite_record_frame store _ _
  · cases env with
    | none => exact Or.inl rfl
    | some e =>
        unfold trackCliOptionEnvironment trackCliOption
        exact ite_record_frame store _ _
  · cases next with
    | none => exact Or.inl rfl
    | some n =>
        unfold trackCliOptionNext trackCliOption
        exact ite_record_frame store _ _
  · rcases p with _ | _ | _
    · exact Or.inl rfl
    · exact Or.inl rfl
    · exact Or.inr ⟨_, rfl⟩
  · rcases y with _ | _ | _
    · exact Or.inl rfl
    · exact Or.inl rfl
    · exact Or.inr ⟨_, rfl⟩
  · rcases c with _ | _ | _
    · exact Or.inl rfl
    · exact Or.inl rfl
    · exact Or.inr ⟨_, rfl⟩
  · cases app with
    | none => exact Or.inl rfl
    | some a =>
        unfold trackCliArgumentApp trackCliArgument
        exact ite_record_frame store _ _

/-- C9: for the `pull`, `init`, and `target` handlers, whenever the parsed
flags contain help, the handler returns exit code 2 with the telemetry
store unchanged (zero events recorded). -/
theorem help_flag_short_circuits (store : EventStore)
    (pf : PullFlags) (inf : InitFlags) (tf : TargetFlags)
    (pullLogic initFn listFn : EventStore → Int × EventStore)
    (hp : pf.help = true) (hi : inf.help = true) (ht : tf.help = true) :
    pullMain (some pf) store pullLogic = (2, store) ∧
    initMain (some inf) store initFn = (2, store) ∧
    targetMain (some tf) store listFn = (2, store) := by
  refine ⟨?_, ?_, ?_⟩
  · simp [pullMain, hp]
  · simp [initMain, hi]
  · simp [targetMain, ht]

/-- Witness for C9 at concrete parsed flags with help set. -/
theorem help_flag_short_circuits_witness :
    pullMain (some ⟨true, false, false, none, none⟩) []
      (fun s => (0, s)) = (2, []) ∧
    initMain (some ⟨true, false, []⟩) [] (fun s => (0, s)) = (2, []) ∧
    targetMain (some ⟨true, []⟩) [] (fun s => (0, s)) = (2, []) :=
  help_flag_short_circuits [] ⟨true, false, false, none, none⟩
    ⟨true, false, []⟩ ⟨true, []⟩ (fun s => (0, s)) (fun s => (0, s))
    (fun s => (0, s)) rfl rfl rfl

/-- C10 counterexample: as stated, the claim fails when the single
argument is the empty string: `dnsRm` on `[""]` records zero events, not
exactly one. -/
theorem dnsRm_counterexample :
    ¬ (∀ (store : EventStore) (args : List String) (lookup : String → Bool)
        (confirmed : Bool), args.length = 1 →
          ((dnsRm store args lookup confirmed).2).length =
            store.length + 1) := by
  intro h
  exact absurd (h [] [""] (fun _ => false) false rfl) (by decide)

/-- C10 (amended): with a number of arguments different from one, `dnsRm`
returns exit code 1 with the store unchanged; with exactly one non-empty
argument, exactly one record-id argument event is recorded before the DNS
lookup, so it stays recorded even when the record is not found and the
command fails with exit code 1. -/
theorem dnsRm_telemetry (store : EventStore) (args : List String)
    (lookup : String → Bool) (confirmed : Bool) (recordId : String)
    (hargs : args = [recordId]) (hne : recordId ≠ "") :
    (dnsRm store args lookup confirmed).2 =
      store ++ [⟨EventKind.argument, "recordId", redactedValue⟩] ∧
    (lookup recordId = false →
      (dnsRm store args lookup confirmed).1 = 1) ∧
    (∀ other : List String, other.length ≠ 1 →
      dnsRm store other lookup confirmed = (1, store)) := by
  subst hargs
  refine ⟨?_, ?_, ?_⟩
  · by_cases hl : lookup recordId
    · by_cases hc : confirmed <;>
        simp [dnsRm, trackCliArgumentRecordId, hne, hl, hc,
          trackCliArgument, record]
    · simp [dnsRm, trackCliArgumentRecordId, hne, hl,
        trackCliArgument, record]
  · intro hl
    simp [dnsRm, trackCliArgumentRecordId, hne, hl]
  · intro other hother
    simp [dnsRm, hother]

/-- Witness for the amended C10: one non-empty record id, lookup fails,
the argument event is still recorded and the exit code is 1. -/
theorem dnsRm_telemetry_witness :
    (dnsRm [] ["rec_123"] (fun _ => false) false).2 =
      [⟨EventKind.argument, "recordId", redactedValue⟩] ∧
    (dnsRm [] ["rec_123"] (fun _ => false) false).1 = 1 :=
  have h := dnsRm_telemetry [] ["rec_123"] (fun _ => false) false "rec_123"
    rfl (by decide)
  ⟨h.1, h.2.1 rfl⟩

end Vercel
